import Mathlib

/-!
Verification of the storage-rotation and capture-lifecycle core of
src/recorder.py (Raspberry Pi dashcam daemon).

The Python source is shallowly embedded below.  Filesystem queries
(os.path.exists, os.path.ismount, os.statvfs) are modelled by an
environment function giving, for each path, one selection cycle
snapshot of what those calls would return.  Free space is computed
in ℚ, mirroring the exact arithmetic free_bytes / 1024 ** 3 of the
source (float rounding is not modelled).  The external encoder
invocation (subprocess.run of ffmpeg) is modelled by its observable
outcome: the process completed with some return code, or the launch
itself raised (executable not found).
-/

namespace DashCam

/-- Static configuration of the daemon: the module-level constants of
recorder.py lines 19-47 (USB_PATHS, VIDEO_DURATION, VIDEO_WIDTH,
VIDEO_HEIGHT, DEVICE, AUDIO_DEVICE, INTERVAL, MIN_FREE_SPACE_GB),
gathered into one record so that the selection logic can be stated for
arbitrary candidate lists and thresholds. -/
structure Config where
  usbPaths : List String
  videoDuration : Nat
  videoWidth : Nat
  videoHeight : Nat
  device : String
  audioDevice : String
  interval : Nat
  minFreeSpaceGb : ℚ

/-- The concrete configuration shipped in recorder.py:
USB_PATHS = ["/mnt/usb1", "/mnt/usb2"], VIDEO_DURATION = 300,
VIDEO_WIDTH = 1280, VIDEO_HEIGHT = 720, DEVICE = "/dev/video0",
AUDIO_DEVICE = "hw:1,0", INTERVAL = 1, MIN_FREE_SPACE_GB = 2. -/
def CONFIG : Config :=
  ⟨["/mnt/usb1", "/mnt/usb2"], 300, 1280, 720, "/dev/video0", "hw:1,0", 1, 2⟩

/-- One selection-cycle snapshot of a candidate path, as the OS calls in
recorder.py see it: the results of os.path.exists and os.path.ismount, and
the result of os.statvfs — some (f_bavail, f_frsize) when the call
succeeds, none when it raises (not mounted, permission denied, stale
handle). -/
structure FsEntry where
  pathExists : Bool
  isMount : Bool
  statvfs : Option (Nat × Nat)
deriving DecidableEq

/-- recorder.py lines 57-76, get_free_space_gb: on a successful statvfs,
free bytes are f_bavail * f_frsize, converted to GB by dividing by
1024 ** 3; the bare except returns 0 on any statvfs failure.  The
division is written with mkRat, which is exactly rational division by
1024 ^ 3 (lemma get_free_space_gb_eq_div below) but keeps the value in
normalized form so that concrete instances evaluate in the kernel. -/
def get_free_space_gb (env : String → FsEntry) (path : String) : ℚ :=
  match (env path).statvfs with
  | some bf => mkRat (bf.1 * bf.2) (1024 ^ 3)
  | none => 0

/-- The mkRat in get_free_space_gb is the exact rational counterpart of
the source expression free_bytes / 1024 ** 3. -/
theorem get_free_space_gb_eq_div (env : String → FsEntry) (path : String)
    (bf : Nat × Nat) (h : (env path).statvfs = some bf) :
    get_free_space_gb env path = ((bf.1 : ℚ) * (bf.2 : ℚ)) / (1024 : ℚ) ^ 3 := by
  simp only [get_free_space_gb, h, Rat.mkRat_eq_div]
  push_cast
  ring

/-- recorder.py line 101: os.path.exists(usb_path) and os.path.ismount(usb_path). -/
def mountPresent (env : String → FsEntry) (path : String) : Bool :=
  (env path).pathExists && (env path).isMount

/-- recorder.py lines 95-111: the available_usbs list built by
select_usb_path — every configured path that exists and is mounted is
appended, paired with its freshly queried free space, regardless of how
much space is available. -/
def available_usbs (cfg : Config) (env : String → FsEntry) : List (String × ℚ) :=
  (cfg.usbPaths.filter fun p => mountPresent env p).map
    fun p => (p, get_free_space_gb env p)

/-- recorder.py lines 119-128, step 2 of select_usb_path: when
LAST_USED_USB is truthy (a non-empty string), scan available_usbs and
return the first entry whose path equals LAST_USED_USB and whose free
space is at least MIN_FREE_SPACE_GB; none when no entry matches. -/
def sticky_choice (minFree : ℚ) (available : List (String × ℚ))
    (lastUsed : Option String) : Option String :=
  match lastUsed with
  | none => none
  | some last =>
      if last = "" then none
      else (available.find? fun pf => pf.1 == last && decide (minFree ≤ pf.2)).map
        fun pf => pf.1

/-- Stable descending insertion of a (path, free-space) pair: the new
element is placed before the first element whose free space is not
strictly greater.  Folding this over the list from the right yields
exactly the stable descending order that Python list.sort with
key free space and reverse true produces (Timsort is stable, and
reverse keeps equal keys in their original order). -/
def insertDesc (x : String × ℚ) : List (String × ℚ) → List (String × ℚ)
  | [] => [x]
  | y :: ys => if x.2 < y.2 then y :: insertDesc x ys else x :: y :: ys

/-- recorder.py line 134: available_usbs.sort(key free space, reverse true),
a stable sort by free space in descending order. -/
def sortDesc (l : List (String × ℚ)) : List (String × ℚ) :=
  l.foldr insertDesc []

/-- recorder.py lines 89-148, select_usb_path.  The global LAST_USED_USB
is passed in and returned explicitly: the result is the pair of the
selected path (none when no key is detected, line 114-117) and the value
of LAST_USED_USB after the call.  Step 2 (sticky) returns without
touching LAST_USED_USB; step 3 sorts by free space descending, takes the
first entry, and records it in LAST_USED_USB (line 142).  The inner []
branch of the sort is unreachable (sortDesc of a nonempty list is
nonempty, lemma sortDesc_eq_nil below). -/
def select_usb_path (cfg : Config) (env : String → FsEntry)
    (lastUsed : Option String) : Option String × Option String :=
  if available_usbs cfg env = [] then (none, lastUsed)
  else
    match sticky_choice cfg.minFreeSpaceGb (available_usbs cfg env) lastUsed with
    | some p => (some p, lastUsed)
    | none =>
        match sortDesc (available_usbs cfg env) with
        | [] => (none, lastUsed)
        | sel :: _ => (some sel.1, some sel.1)

/-- The same function as select_usb_path, additionally reporting how many
assignments to the global LAST_USED_USB the call executes: the sticky
branch (lines 123-128) returns without assigning, the max-free-space
branch executes the single assignment of line 142. -/
def select_usb_path_instr (cfg : Config) (env : String → FsEntry)
    (lastUsed : Option String) : Option String × Option String × Nat :=
  if available_usbs cfg env = [] then (none, lastUsed, 0)
  else
    match sticky_choice cfg.minFreeSpaceGb (available_usbs cfg env) lastUsed with
    | some p => (some p, lastUsed, 0)
    | none =>
        match sortDesc (available_usbs cfg env) with
        | [] => (none, lastUsed, 0)
        | sel :: _ => (some sel.1, some sel.1, 1)

/-- A wall-clock instant at one-second resolution, as datetime.now()
provides it to strftime in recorder.py. -/
structure Timestamp where
  year : Nat
  month : Nat
  day : Nat
  hour : Nat
  minute : Nat
  second : Nat
deriving DecidableEq

/-- The decimal digit character for n below 10 (codepoint 48 + n). -/
def digitChar (n : Nat) : Char :=
  Char.ofNat (48 + n)

/-- Decimal digit characters of a natural number, most significant
first, with an explicit fuel argument so that the recursion is
structural and concrete instances evaluate in the kernel; the fuel
never runs out when it exceeds the number. -/
def natDigitsCore : Nat → Nat → List Char
  | 0, _ => []
  | fuel + 1, n =>
      if n < 10 then [digitChar n]
      else natDigitsCore fuel (n / 10) ++ [digitChar (n % 10)]

/-- Decimal digit characters of a natural number, most significant first. -/
def natDigits (n : Nat) : List Char :=
  natDigitsCore (n + 1) n

/-- Zero-padded fixed-width decimal rendering, the semantics of the
strftime fields of recorder.py line 164 (all of %m %d %H %M %S pad to
width 2 with leading zeros, %Y to width 4). -/
def padNum (w n : Nat) : List Char :=
  List.replicate (w - (natDigits n).length) '0' ++ natDigits n

/-- recorder.py line 164: datetime.now().strftime with format
%Y%m%d_%H%M%S. -/
def strftime_YmdHMS (t : Timestamp) : List Char :=
  padNum 4 t.year ++ padNum 2 t.month ++ padNum 2 t.day ++ ['_'] ++
    padNum 2 t.hour ++ padNum 2 t.minute ++ padNum 2 t.second

/-- recorder.py line 168: filename = "video_" ++ timestamp ++ ".avi". -/
def record_filename (t : Timestamp) : List Char :=
  "video_".toList ++ strftime_YmdHMS t ++ ".avi".toList

/-- POSIX os.path.join of recorder.py line 173 for two components: an
absolute second component replaces the first; otherwise the separator is
inserted unless the first component is empty or already ends in one. -/
def os_path_join (a b : List Char) : List Char :=
  if b.take 1 = ['/'] then b
  else if a = [] then b
  else if a.getLast? = some '/' then a ++ b
  else a ++ '/' :: b

/-- recorder.py lines 164-173: the full output path record_video
constructs from the destination mount and the current wall-clock
instant. -/
def record_filepath (usb_path : String) (t : Timestamp) : List Char :=
  os_path_join usb_path.toList (record_filename t)

/-- The Python exceptions relevant to record_video: CalledProcessError
(raised by subprocess.run with check=True on a nonzero exit status) and
FileNotFoundError (raised by subprocess.run when the executable cannot
be launched at all). -/
inductive PyExc where
  | calledProcessError
  | fileNotFoundError
deriving DecidableEq

/-- The observable outcome of the subprocess.run invocation of ffmpeg in
recorder.py line 216: either the encoder process ran and exited with
some return code, or the launch itself failed (executable not found)
before any process existed. -/
inductive RunOutcome where
  | completed (returncode : Int)
  | launchFailure
deriving DecidableEq

/-- recorder.py lines 158-227, record_video: construct the output path,
invoke the encoder, and interpret the outcome.  With check=True,
subprocess.run raises CalledProcessError exactly on a nonzero exit
status, and that is the only exception the except clause of line 223
catches: a completed run with exit 0 returns true, a completed run with
nonzero exit is caught and returns false, and a launch failure raises
FileNotFoundError, which is not a CalledProcessError and therefore
escapes record_video. -/
def record_video (usb_path : String) (t : Timestamp)
    (outcome : RunOutcome) : Except PyExc Bool :=
  let _filepath := record_filepath usb_path t
  match outcome with
  | RunOutcome.completed rc => if rc = 0 then Except.ok true else Except.ok false
  | RunOutcome.launchFailure => Except.error PyExc.fileNotFoundError

/-- How a run of main (recorder.py lines 240-261) can leave the startup
phase: by refusing to run on a bad configuration, or by entering the
unbounded while-True loop. -/
inductive StartupOutcome where
  | fatalConfigError
  | entersLoop
deriving DecidableEq

/-- recorder.py lines 240-245: main prints the banner and immediately
enters the while-True loop; no branch inspects the configuration before
the loop, for any configuration. -/
def main_startup (_cfg : Config) : StartupOutcome :=
  StartupOutcome.entersLoop

/-- Validity of a static configuration.  This definition follows the
words of the specification, not the source (the source performs no
validation): a configuration is invalid when the segment duration is not
positive or the candidate mount list is empty. -/
def config_valid (cfg : Config) : Bool :=
  decide (0 < cfg.videoDuration) && decide (cfg.usbPaths ≠ [])

/-- A configuration that config_valid rejects: duration 0 and no
candidate mounts (the other fields are those of CONFIG). -/
def invalidConfig : Config :=
  ⟨[], 0, 1280, 720, "/dev/video0", "hw:1,0", 1, 2⟩

/-- Observable actions of one iteration of the supervisory loop: a
capture attempt on a path with its boolean result, or a timed pause of
some number of seconds. -/
inductive Event where
  | record (path : String) (success : Bool)
  | sleep (seconds : Nat)
deriving DecidableEq

/-- recorder.py lines 245-271, one iteration of the while-True loop of
main: select a destination; when none is available, pause 5 seconds and
retry (no capture attempt); otherwise run record_video, discard its
boolean result, and pause INTERVAL seconds.  The result is the list of
observable actions of the iteration together with the value of
LAST_USED_USB afterwards; an exception escaping record_video terminates
the loop and is returned as an error. -/
def main_iteration (cfg : Config) (env : String → FsEntry) (t : Timestamp)
    (enc : RunOutcome) (lastUsed : Option String) :
    Except PyExc (List Event × Option String) :=
  match select_usb_path cfg env lastUsed with
  | (none, newLast) => Except.ok ([Event.sleep 5], newLast)
  | (some p, newLast) =>
      match record_video p t enc with
      | Except.error e => Except.error e
      | Except.ok b => Except.ok ([Event.record p b, Event.sleep cfg.interval], newLast)

/-! Helper lemmas about the embedded selection logic. -/

theorem insertDesc_ne_nil (x : String × ℚ) (l : List (String × ℚ)) :
    insertDesc x l ≠ [] := by
  cases l with
  | nil => simp [insertDesc]
  | cons y ys =>
      simp only [insertDesc]
      split <;> simp

theorem sortDesc_eq_nil {l : List (String × ℚ)} (h : sortDesc l = []) : l = [] := by
  cases l with
  | nil => rfl
  | cons x xs => exact absurd h (insertDesc_ne_nil x (sortDesc xs))

theorem mem_insertDesc {y x : String × ℚ} {l : List (String × ℚ)} :
    y ∈ insertDesc x l ↔ y = x ∨ y ∈ l := by
  induction l with
  | nil => simp [insertDesc]
  | cons z zs ih =>
      simp only [insertDesc]
      split
      · simp only [List.mem_cons, ih]
        tauto
      · simp [List.mem_cons]

theorem mem_sortDesc {y : String × ℚ} {l : List (String × ℚ)} :
    y ∈ sortDesc l ↔ y ∈ l := by
  induction l with
  | nil => simp [sortDesc]
  | cons x xs ih =>
      show y ∈ insertDesc x (sortDesc xs) ↔ _
      rw [mem_insertDesc, ih]
      simp [List.mem_cons]

theorem insertDesc_pairwise {x : String × ℚ} {l : List (String × ℚ)}
    (h : l.Pairwise fun a b => b.2 ≤ a.2) :
    (insertDesc x l).Pairwise fun a b => b.2 ≤ a.2 := by
  induction l with
  | nil => simp [insertDesc]
  | cons y ys ih =>
      obtain ⟨hy, hys⟩ := List.pairwise_cons.mp h
      simp only [insertDesc]
      split
      · rename_i hlt
        rw [List.pairwise_cons]
        refine ⟨?_, ih hys⟩
        intro z hz
        rcases mem_insertDesc.mp hz with rfl | hz'
        · exact le_of_lt hlt
        · exact hy z hz'
      · rename_i hge
        rw [List.pairwise_cons]
        refine ⟨?_, h⟩
        intro z hz
        rcases List.mem_cons.mp hz with rfl | hz'
        · exact not_lt.mp hge
        · exact le_trans (hy z hz') (not_lt.mp hge)

/-- The stable descending sort is sorted: every entry is bounded by each
entry before it. -/
theorem sortDesc_pairwise (l : List (String × ℚ)) :
    (sortDesc l).Pairwise fun a b => b.2 ≤ a.2 := by
  induction l with
  | nil => simp [sortDesc]
  | cons x xs ih => exact insertDesc_pairwise ih

/-- The first element after the stable descending sort has maximal free
space among all entries. -/
theorem sortDesc_head_max {l : List (String × ℚ)} {p : String × ℚ}
    {rest : List (String × ℚ)} (h : sortDesc l = p :: rest) :
    ∀ y ∈ l, y.2 ≤ p.2 := by
  intro y hy
  have hmem : y ∈ p :: rest := h ▸ mem_sortDesc.mpr hy
  rcases List.mem_cons.mp hmem with rfl | hy'
  · exact le_refl _
  · have hp := sortDesc_pairwise l
    rw [h] at hp
    exact (List.pairwise_cons.mp hp).1 y hy'

/-- Membership in the candidate list: entries are exactly the present
configured paths, each paired with its freshly queried free space. -/
theorem mem_available_usbs {cfg : Config} {env : String → FsEntry}
    {pf : String × ℚ} :
    pf ∈ available_usbs cfg env ↔
      pf.1 ∈ cfg.usbPaths ∧ mountPresent env pf.1 = true ∧
        pf.2 = get_free_space_gb env pf.1 := by
  constructor
  · intro h
    obtain ⟨a, ha, rfl⟩ := List.mem_map.mp h
    obtain ⟨ha1, ha2⟩ := List.mem_filter.mp ha
    exact ⟨ha1, ha2, rfl⟩
  · intro ⟨h1, h2, h3⟩
    have : (pf.1, get_free_space_gb env pf.1) ∈ available_usbs cfg env :=
      List.mem_map_of_mem _ (List.mem_filter.mpr ⟨h1, h2⟩)
    have hpf : pf = (pf.1, get_free_space_gb env pf.1) := by
      cases pf; simp_all
    rw [hpf]
    exact this

/-- Measured free space is never negative: a successful statvfs yields a
nonnegative quantity and a failed one yields 0. -/
theorem free_nonneg (env : String → FsEntry) (p : String) :
    0 ≤ get_free_space_gb env p := by
  cases h : (env p).statvfs with
  | none => simp [get_free_space_gb, h]
  | some bf =>
      simp only [get_free_space_gb, h]
      rw [Rat.mkRat_eq_div]
      positivity

/-- A successful sticky lookup returns exactly the previously used path,
with its entry meeting the threshold. -/
theorem sticky_choice_eq_some {minFree : ℚ} {available : List (String × ℚ)}
    {lastUsed : Option String} {p : String}
    (h : sticky_choice minFree available lastUsed = some p) :
    lastUsed = some p ∧ ∃ f, (p, f) ∈ available ∧ minFree ≤ f := by
  cases lastUsed with
  | none => simp [sticky_choice] at h
  | some last =>
      simp only [sticky_choice] at h
      split at h
      · simp at h
      · obtain ⟨pf, hf, rfl⟩ := Option.map_eq_some'.mp h
        have hpred := List.find?_some hf
        have hmem := List.mem_of_find?_eq_some hf
        simp only [Bool.and_eq_true, beq_iff_eq, decide_eq_true_eq] at hpred
        refine ⟨by rw [hpred.1], pf.2, ?_, hpred.2⟩
        have : pf = (pf.1, pf.2) := rfl
        rw [← this]
        exact hmem

/-- When every candidate is below the threshold the sticky lookup fails. -/
theorem sticky_choice_none_of_below {minFree : ℚ}
    {available : List (String × ℚ)} {lastUsed : Option String}
    (h : ∀ pf ∈ available, pf.2 < minFree) :
    sticky_choice minFree available lastUsed = none := by
  cases hs : sticky_choice minFree available lastUsed with
  | none => rfl
  | some p =>
      obtain ⟨_, f, hmem, hge⟩ := sticky_choice_eq_some hs
      exact absurd hge (not_le.mpr (h _ hmem))

/-! Helper lemmas about the timestamp rendering. -/

theorem digitChar_isDigit {n : Nat} (h : n < 10) : (digitChar n).isDigit = true := by
  interval_cases n <;> decide

theorem natDigitsCore_digits :
    ∀ (fuel n : Nat), ∀ c ∈ natDigitsCore fuel n, c.isDigit = true := by
  intro fuel
  induction fuel with
  | zero => intro n c hc; simp [natDigitsCore] at hc
  | succ fuel ih =>
      intro n c hc
      simp only [natDigitsCore] at hc
      split at hc
      · rename_i h
        rcases List.mem_singleton.mp hc with rfl
        exact digitChar_isDigit h
      · rcases List.mem_append.mp hc with hc' | hc'
        · exact ih (n / 10) c hc'
        · rcases List.mem_singleton.mp hc' with rfl
          exact digitChar_isDigit (Nat.mod_lt n (by omega))

theorem natDigits_digits (n : Nat) : ∀ c ∈ natDigits n, c.isDigit = true :=
  natDigitsCore_digits (n + 1) n

theorem natDigitsCore_length :
    ∀ (fuel k n : Nat), n < fuel → 0 < k → n < 10 ^ k →
      (natDigitsCore fuel n).length ≤ k := by
  intro fuel
  induction fuel with
  | zero => intro k n h; omega
  | succ fuel ih =>
      intro k n hfuel hk hn
      simp only [natDigitsCore]
      split
      · simp only [List.length_cons, List.length_nil]
        omega
      · rename_i h10
        rcases k with _ | j
        · omega
        · have hj : 0 < j := by
            rcases Nat.eq_zero_or_pos j with rfl | hj
            · norm_num at hn; omega
            · exact hj
          have hdiv : n / 10 < 10 ^ j := by
            rw [Nat.div_lt_iff_lt_mul (by omega)]
            calc n < 10 ^ (j + 1) := hn
              _ = 10 ^ j * 10 := by rw [pow_succ]
          have hdf : n / 10 < fuel := by
            have h1 : n / 10 < n := Nat.div_lt_self (by omega) (by omega)
            omega
          have := ih j (n / 10) hdf hj hdiv
          simp only [List.length_append, List.length_singleton]
          omega

theorem natDigits_length_le {k n : Nat} (hk : 0 < k) (hn : n < 10 ^ k) :
    (natDigits n).length ≤ k :=
  natDigitsCore_length (n + 1) k n (by omega) hk hn

theorem padNum_length {w n : Nat} (h : (natDigits n).length ≤ w) :
    (padNum w n).length = w := by
  simp only [padNum, List.length_append, List.length_replicate]
  omega

theorem padNum_digits (w n : Nat) : ∀ c ∈ padNum w n, c.isDigit = true := by
  intro c hc
  rcases List.mem_append.mp hc with hc' | hc'
  · rw [List.eq_of_mem_replicate hc']
    decide
  · exact natDigits_digits n c hc'

/-- The output-path pattern of the specification, stated in its words
for comparison with the path the code constructs: the mount path,
followed by /video_, eight digit characters (YYYYMMDD), an underscore,
six digit characters (HHMMSS), and the extension .avi — nothing else, so
the file sits directly in the root of the mount. -/
def spec_video_pattern (mount : String) (s : List Char) : Prop :=
  ∃ d8 d6 : List Char, d8.length = 8 ∧ d6.length = 6 ∧
    (∀ c ∈ d8, c.isDigit = true) ∧ (∀ c ∈ d6, c.isDigit = true) ∧
    s = mount.toList ++ "/video_".toList ++ d8 ++ '_' :: (d6 ++ ".avi".toList)

/-! Concrete selection-cycle environments used as witnesses below.  Each
gives, per path, the snapshot of os.path.exists, os.path.ismount and
os.statvfs for one cycle; block counts are chosen against f_frsize
1073741824 = 1024 ^ 3 so that the free space in GB is the block count
itself. -/

/-- Cycle in which both keys are mounted, usb1 with 10 GB free and usb2
with 50 GB free. -/
def envC1 : String → FsEntry := fun p =>
  if p = "/mnt/usb1" then ⟨true, true, some (10, 1073741824)⟩
  else if p = "/mnt/usb2" then ⟨true, true, some (50, 1073741824)⟩
  else ⟨false, false, none⟩

/-- Cycle in which only usb1 is present and its statvfs raises. -/
def envC3 : String → FsEntry := fun p =>
  if p = "/mnt/usb1" then ⟨true, true, none⟩
  else ⟨false, false, none⟩

/-- Cycle in which only usb1 is present, mounted, with 10 GB free. -/
def envC4 : String → FsEntry := fun p =>
  if p = "/mnt/usb1" then ⟨true, true, some (10, 1073741824)⟩
  else ⟨false, false, none⟩

/-- Cycle in which both keys are mounted and both are below the 2 GB
threshold: usb1 with 1 GB free, usb2 with 0 GB free. -/
def envC5 : String → FsEntry := fun p =>
  if p = "/mnt/usb1" then ⟨true, true, some (1, 1073741824)⟩
  else if p = "/mnt/usb2" then ⟨true, true, some (0, 1073741824)⟩
  else ⟨false, false, none⟩

/-- Cycle in which both keys are mounted with exactly equal free space
of 5 GB each. -/
def envC6 : String → FsEntry := fun p =>
  if p = "/mnt/usb1" then ⟨true, true, some (5, 1073741824)⟩
  else if p = "/mnt/usb2" then ⟨true, true, some (5, 1073741824)⟩
  else ⟨false, false, none⟩

/-- Cycle in which only usb1 is present and its statvfs raises. -/
def envC9 : String → FsEntry := fun p =>
  if p = "/mnt/usb1" then ⟨true, true, none⟩
  else ⟨false, false, none⟩

/-- Cycle in which only usb1 is present, mounted, with 10 GB free. -/
def envC10 : String → FsEntry := fun p =>
  if p = "/mnt/usb1" then ⟨true, true, some (10, 1073741824)⟩
  else ⟨false, false, none⟩

/-- The wall-clock instant 2025-10-03 14:35:20. -/
def t0 : Timestamp := ⟨2025, 10, 3, 14, 35, 20⟩

/-! The claims. -/

/-- C1 (sticky selection, Policy A): in every selection cycle in which
the previously selected mount is a configured candidate, is present and
mounted, and its freshly re-queried free space is at least the minimum
free-space threshold, select_usb_path returns that same mount and leaves
LAST_USED_USB unchanged — unconditionally on the other mounts, so in
particular even when another present mount has strictly more free space.
The previously selected path is a real mount path, hence nonempty (an
empty string would be falsy in the Python truthiness test of line 123). -/
theorem c1_sticky_selection (cfg : Config) (env : String → FsEntry)
    (last : String) (hne : last ≠ "") (hmem : last ∈ cfg.usbPaths)
    (hpres : mountPresent env last = true)
    (hfree : cfg.minFreeSpaceGb ≤ get_free_space_gb env last) :
    select_usb_path cfg env (some last) = (some last, some last) := by
  have hmemav : (last, get_free_space_gb env last) ∈ available_usbs cfg env :=
    mem_available_usbs.mpr ⟨hmem, hpres, rfl⟩
  have hav : available_usbs cfg env ≠ [] := by
    intro h0
    rw [h0] at hmemav
    exact absurd hmemav (List.not_mem_nil _)
  have hpred : ((last, get_free_space_gb env last).1 == last &&
      decide (cfg.minFreeSpaceGb ≤ (last, get_free_space_gb env last).2)) = true := by
    simp [hfree]
  have hfind : ∃ pf, (available_usbs cfg env).find?
      (fun pf => pf.1 == last && decide (cfg.minFreeSpaceGb ≤ pf.2)) = some pf := by
    have hsome : ((available_usbs cfg env).find?
        (fun pf => pf.1 == last && decide (cfg.minFreeSpaceGb ≤ pf.2))).isSome := by
      rw [List.find?_isSome]
      exact ⟨(last, get_free_space_gb env last), hmemav, hpred⟩
    exact Option.isSome_iff_exists.mp hsome
  obtain ⟨pf, hpf⟩ := hfind
  have hpf1 : pf.1 = last := by
    have := List.find?_some hpf
    simp only [Bool.and_eq_true, beq_iff_eq, decide_eq_true_eq] at this
    exact this.1
  have hsticky : sticky_choice cfg.minFreeSpaceGb (available_usbs cfg env)
      (some last) = some last := by
    simp only [sticky_choice, if_neg hne, hpf, Option.map_some']
    rw [hpf1]
  rw [select_usb_path, if_neg hav, hsticky]

/-- C1 witness: with usb1 previously selected and holding 10 GB ≥ 2 GB,
select sticks to usb1 even though usb2 has 50 GB free. -/
theorem c1_sticky_selection_witness :
    ("/mnt/usb1" : String) ≠ "" ∧ "/mnt/usb1" ∈ CONFIG.usbPaths ∧
      mountPresent envC1 "/mnt/usb1" = true ∧
      CONFIG.minFreeSpaceGb ≤ get_free_space_gb envC1 "/mnt/usb1" ∧
      get_free_space_gb envC1 "/mnt/usb1" < get_free_space_gb envC1 "/mnt/usb2" ∧
      select_usb_path CONFIG envC1 (some "/mnt/usb1") = (some "/mnt/usb1", some "/mnt/usb1") :=
  ⟨by decide, by decide, by decide, by decide, by decide,
    c1_sticky_selection CONFIG envC1 "/mnt/usb1" (by decide) (by decide)
      (by decide) (by decide)⟩

/-- C5 (threshold fallback): in every selection cycle in which at least
one configured mount is present and mounted but every present mount is
below the minimum free-space threshold, select_usb_path still returns
the present mount with the maximum free space instead of the
no-destination result (the sticky rule cannot apply, since it requires
free space at or above the threshold). -/
theorem c5_threshold_fallback (cfg : Config) (env : String → FsEntry)
    (last : Option String) (hne : available_usbs cfg env ≠ [])
    (hbelow : ∀ pf ∈ available_usbs cfg env, pf.2 < cfg.minFreeSpaceGb) :
    ∃ sel : String × ℚ, sel ∈ available_usbs cfg env ∧
      (select_usb_path cfg env last).1 = some sel.1 ∧
      ∀ qf ∈ available_usbs cfg env, qf.2 ≤ sel.2 := by
  have hsticky : sticky_choice cfg.minFreeSpaceGb (available_usbs cfg env) last = none :=
    sticky_choice_none_of_below hbelow
  cases hsort : sortDesc (available_usbs cfg env) with
  | nil => exact absurd (sortDesc_eq_nil hsort) hne
  | cons sel rest =>
      refine ⟨sel, ?_, ?_, ?_⟩
      · exact mem_sortDesc.mp (hsort ▸ List.mem_cons_self sel rest)
      · rw [select_usb_path, if_neg hne, hsticky, hsort]
      · exact sortDesc_head_max hsort

/-- C5 witness: both mounts present, 1 GB and 0 GB free, both below the
2 GB threshold — select still picks a present mount with maximal free
space. -/
theorem c5_threshold_fallback_witness :
    available_usbs CONFIG envC5 ≠ [] ∧
      (∀ pf ∈ available_usbs CONFIG envC5, pf.2 < CONFIG.minFreeSpaceGb) ∧
      ∃ sel : String × ℚ, sel ∈ available_usbs CONFIG envC5 ∧
        (select_usb_path CONFIG envC5 none).1 = some sel.1 ∧
        ∀ qf ∈ available_usbs CONFIG envC5, qf.2 ≤ sel.2 :=
  ⟨by decide, by decide, c5_threshold_fallback CONFIG envC5 none (by decide) (by decide)⟩

/-- C6 (tie-break determinism): under the shipped configuration, in
every selection cycle in which both configured mounts are present with
exactly equal free space and the sticky rule does not fire (so the
max-free-space comparison of line 134 is reached), select_usb_path
returns /mnt/usb1, the mount listed first in USB_PATHS: the descending
sort is stable with respect to configuration order.  The statement is
quantified over all such cycles, so repeated calls in equal states
return the same mount. -/
theorem c6_tiebreak_first_configured (env : String → FsEntry)
    (last : Option String)
    (h1 : mountPresent env "/mnt/usb1" = true)
    (h2 : mountPresent env "/mnt/usb2" = true)
    (heq : get_free_space_gb env "/mnt/usb1" = get_free_space_gb env "/mnt/usb2")
    (hsticky : sticky_choice CONFIG.minFreeSpaceGb (available_usbs CONFIG env) last = none) :
    (select_usb_path CONFIG env last).1 = some "/mnt/usb1" := by
  have hav : available_usbs CONFIG env =
      [("/mnt/usb1", get_free_space_gb env "/mnt/usb1"),
       ("/mnt/usb2", get_free_space_gb env "/mnt/usb2")] := by
    simp [available_usbs, CONFIG, List.filter_cons, h1, h2]
  have hsort : sortDesc (available_usbs CONFIG env) =
      [("/mnt/usb1", get_free_space_gb env "/mnt/usb1"),
       ("/mnt/usb2", get_free_space_gb env "/mnt/usb2")] := by
    rw [hav]
    show insertDesc _ (insertDesc _ []) = _
    simp only [insertDesc]
    rw [if_neg (by rw [heq]; exact lt_irrefl _)]
  have hne : available_usbs CONFIG env ≠ [] := by
    rw [hav]; simp
  rw [select_usb_path, if_neg hne, hsticky, hsort]

/-- C6 witness: both mounts present with exactly 5 GB free each, no
previous selection — select returns the first-configured /mnt/usb1. -/
theorem c6_tiebreak_first_configured_witness :
    mountPresent envC6 "/mnt/usb1" = true ∧ mountPresent envC6 "/mnt/usb2" = true ∧
      get_free_space_gb envC6 "/mnt/usb1" = get_free_space_gb envC6 "/mnt/usb2" ∧
      sticky_choice CONFIG.minFreeSpaceGb (available_usbs CONFIG envC6) none = none ∧
      (select_usb_path CONFIG envC6 none).1 = some "/mnt/usb1" :=
  ⟨by decide, by decide, by decide, by decide,
    c6_tiebreak_first_configured envC6 none (by decide) (by decide) (by decide) (by decide)⟩

/-- C3 counterexample: the claim says a mount whose statistics query
fails is excluded from the candidate set and cannot be the mount
returned by select.  In the cycle envC3, /mnt/usb1 is present and
mounted but its statvfs raises — and select returns it anyway, because
line 107 appends every present mount regardless of the failed query. -/
theorem c3_statfail_selected_cex :
    (envC3 "/mnt/usb1").statvfs = none ∧
      mountPresent envC3 "/mnt/usb1" = true ∧
      (select_usb_path CONFIG envC3 none).1 = some "/mnt/usb1" := by
  decide

/-- C3 amended: a present, mounted candidate whose statistics query
fails is kept in the cycle's candidate set with measured free space 0
(the bare except of get_free_space_gb makes the failure non-fatal); it
is never preferred over any mount with positive free space — select can
return it only in cycles in which every candidate's measured free space
is 0 (with the shipped positive threshold the sticky rule can never
choose it either). -/
theorem c3_statfail_kept_with_zero (cfg : Config) (env : String → FsEntry)
    (last : Option String) (p : String) (hmem : p ∈ cfg.usbPaths)
    (hpres : mountPresent env p = true) (hstat : (env p).statvfs = none)
    (hmin : 0 < cfg.minFreeSpaceGb) :
    (p, 0) ∈ available_usbs cfg env ∧
      ((select_usb_path cfg env last).1 = some p →
        ∀ qf ∈ available_usbs cfg env, qf.2 = 0) := by
  have hfree : get_free_space_gb env p = 0 := by
    simp [get_free_space_gb, hstat]
  have hmem0 : (p, 0) ∈ available_usbs cfg env :=
    mem_available_usbs.mpr ⟨hmem, hpres, hfree.symm⟩
  refine ⟨hmem0, ?_⟩
  intro hsel qf hqf
  by_cases hav : available_usbs cfg env = []
  · rw [select_usb_path, if_pos hav] at hsel
    exact absurd hsel (by simp)
  · rw [select_usb_path, if_neg hav] at hsel
    cases hs : sticky_choice cfg.minFreeSpaceGb (available_usbs cfg env) last with
    | some q =>
        rw [hs] at hsel
        have hqp : q = p := by simpa using hsel
        subst hqp
        obtain ⟨-, f, hmemq, hgef⟩ := sticky_choice_eq_some hs
        have hf : f = get_free_space_gb env q := (mem_available_usbs.mp hmemq).2.2
        rw [hf, hfree] at hgef
        exact absurd hgef (not_le.mpr hmin)
    | none =>
        rw [hs] at hsel
        cases hsort : sortDesc (available_usbs cfg env) with
        | nil => exact absurd (sortDesc_eq_nil hsort) hav
        | cons sel rest =>
            rw [hsort] at hsel
            have hselp : sel.1 = p := by simpa using hsel
            have hselmem : sel ∈ available_usbs cfg env :=
              mem_sortDesc.mp (hsort ▸ List.mem_cons_self sel rest)
            have hsel2 : sel.2 = get_free_space_gb env sel.1 :=
              (mem_available_usbs.mp hselmem).2.2
            rw [hselp, hfree] at hsel2
            have hle : qf.2 ≤ 0 := hsel2 ▸ sortDesc_head_max hsort qf hqf
            have hge : 0 ≤ qf.2 := by
              rw [(mem_available_usbs.mp hqf).2.2]
              exact free_nonneg env qf.1
            exact le_antisymm hle hge

/-- C3 amended witness: in the cycle envC3 the unstat-able /mnt/usb1 is
in the candidate set with 0 GB, and since select returns it, every
candidate of that cycle indeed has measured free space 0. -/
theorem c3_statfail_kept_with_zero_witness :
    ("/mnt/usb1" ∈ CONFIG.usbPaths ∧ mountPresent envC3 "/mnt/usb1" = true ∧
        (envC3 "/mnt/usb1").statvfs = none ∧ 0 < CONFIG.minFreeSpaceGb) ∧
      ("/mnt/usb1", (0 : ℚ)) ∈ available_usbs CONFIG envC3 ∧
      ((select_usb_path CONFIG envC3 none).1 = some "/mnt/usb1" →
        ∀ qf ∈ available_usbs CONFIG envC3, qf.2 = 0) :=
  ⟨⟨by decide, by decide, by decide, by decide⟩,
    c3_statfail_kept_with_zero CONFIG envC3 none "/mnt/usb1" (by decide)
      (by decide) (by decide) (by decide)⟩

/-- C9 (implicit): a present, mounted path whose free-space query fails
is kept in the candidate set with measured free space 0, and in the
cycle envC9, where the only present mount is unstat-able, select returns
that mount with measured free space 0 and records it as the new sticky
mount. -/
theorem c9_statfail_zero_selected_sticky :
    (envC9 "/mnt/usb1").statvfs = none ∧
      mountPresent envC9 "/mnt/usb1" = true ∧
      get_free_space_gb envC9 "/mnt/usb1" = 0 ∧
      available_usbs CONFIG envC9 = [("/mnt/usb1", 0)] ∧
      select_usb_path CONFIG envC9 none = (some "/mnt/usb1", some "/mnt/usb1") := by
  decide

/-- The instrumented selector agrees with select_usb_path on the
selected path and the post-call LAST_USED_USB. -/
theorem select_eq_instr (cfg : Config) (env : String → FsEntry)
    (lastUsed : Option String) :
    select_usb_path cfg env lastUsed =
      ((select_usb_path_instr cfg env lastUsed).1,
        (select_usb_path_instr cfg env lastUsed).2.1) := by
  rw [select_usb_path, select_usb_path_instr]
  by_cases hav : available_usbs cfg env = []
  · rw [if_pos hav, if_pos hav]
  · rw [if_neg hav, if_neg hav]
    cases hs : sticky_choice cfg.minFreeSpaceGb (available_usbs cfg env) lastUsed with
    | some p => rfl
    | none =>
        cases hsort : sortDesc (available_usbs cfg env) with
        | nil => rfl
        | cons sel rest => rfl

/-- C4 counterexample: the claim says every successful selection mutates
LAST_USED_USB exactly once.  In the cycle envC4 with /mnt/usb1 as the
previous choice, the selection succeeds through the sticky branch of
lines 123-128, which returns without executing any assignment: the write
count is 0, not 1. -/
theorem c4_sticky_writes_zero_cex :
    (select_usb_path_instr CONFIG envC4 (some "/mnt/usb1")).1 = some "/mnt/usb1" ∧
      ¬ (select_usb_path_instr CONFIG envC4 (some "/mnt/usb1")).2.2 = 1 := by
  decide

/-- C4 amended: every successful selection writes LAST_USED_USB at most
once — exactly once in the max-free-space branch and zero times in the
sticky branch, whose unchanged previous value already equals the
returned path — and afterwards LAST_USED_USB equals the mount path the
selection returned.  (No other component touches the variable: the
global statement of line 91 is the only access outside select_usb_path,
and main_iteration below threads the state through select_usb_path
alone.) -/
theorem c4_state_matches_result (cfg : Config) (env : String → FsEntry)
    (lastUsed : Option String) (p : String)
    (h : (select_usb_path_instr cfg env lastUsed).1 = some p) :
    (select_usb_path_instr cfg env lastUsed).2.1 = some p ∧
      (select_usb_path_instr cfg env lastUsed).2.2 ≤ 1 ∧
      select_usb_path cfg env lastUsed = (some p, some p) := by
  by_cases hav : available_usbs cfg env = []
  · rw [select_usb_path_instr, if_pos hav] at h
    exact absurd h (by simp)
  · cases hs : sticky_choice cfg.minFreeSpaceGb (available_usbs cfg env) lastUsed with
    | some q =>
        have hinstr : select_usb_path_instr cfg env lastUsed = (some q, lastUsed, 0) := by
          rw [select_usb_path_instr, if_neg hav, hs]
        rw [hinstr] at h
        have hqp : q = p := by simpa using h
        subst hqp
        obtain ⟨hlast, -⟩ := sticky_choice_eq_some hs
        refine ⟨by rw [hinstr, hlast], by rw [hinstr]; norm_num, ?_⟩
        rw [select_eq_instr, hinstr, hlast]
    | none =>
        cases hsort : sortDesc (available_usbs cfg env) with
        | nil => exact absurd (sortDesc_eq_nil hsort) hav
        | cons sel rest =>
            have hinstr : select_usb_path_instr cfg env lastUsed =
                (some sel.1, some sel.1, 1) := by
              rw [select_usb_path_instr, if_neg hav, hs, hsort]
            rw [hinstr] at h
            have hsp : sel.1 = p := by simpa using h
            refine ⟨by rw [hinstr, hsp], by rw [hinstr], ?_⟩
            rw [select_eq_instr, hinstr, hsp]

/-- C4 amended witness: a fresh selection (no previous choice) in the
cycle envC4 succeeds, writes once, and leaves LAST_USED_USB equal to the
returned path. -/
theorem c4_state_matches_result_witness :
    (select_usb_path_instr CONFIG envC4 none).1 = some "/mnt/usb1" ∧
      (select_usb_path_instr CONFIG envC4 none).2.1 = some "/mnt/usb1" ∧
      (select_usb_path_instr CONFIG envC4 none).2.2 ≤ 1 ∧
      select_usb_path CONFIG envC4 none = (some "/mnt/usb1", some "/mnt/usb1") :=
  ⟨by decide,
    (c4_state_matches_result CONFIG envC4 none "/mnt/usb1" (by decide)).1,
    (c4_state_matches_result CONFIG envC4 none "/mnt/usb1" (by decide)).2.1,
    (c4_state_matches_result CONFIG envC4 none "/mnt/usb1" (by decide)).2.2⟩

/-- C2: record_video returns true exactly when the encoder process exits
with status zero, and any nonzero exit status is caught (CalledProcessError)
and yields false — but a failure to even launch the encoder (executable
not found) raises FileNotFoundError, which the except clause of line 223
does not catch, so it escapes record_video instead of being logged and
turned into false as the claim requires. -/
theorem c2_exit_status_interpretation :
    (∀ (usb_path : String) (t : Timestamp) (rc : Int),
        record_video usb_path t (RunOutcome.completed rc) =
          Except.ok (decide (rc = 0))) ∧
      (∀ (usb_path : String) (t : Timestamp),
        record_video usb_path t RunOutcome.launchFailure =
          Except.error PyExc.fileNotFoundError) := by
  constructor
  · intro usb_path t rc
    by_cases h : rc = 0 <;> simp [record_video, h]
  · intro usb_path t
    rfl

/-- C8 counterexample: the claim says invalid static configuration is
detected and fatal at startup.  The source performs no validation at
all: with a configuration that is invalid by the specification's own
criteria (duration 0 and an empty candidate list), main still enters the
supervisory loop instead of refusing to run. -/
theorem c8_no_startup_validation_cex :
    config_valid invalidConfig = false ∧
      main_startup invalidConfig = StartupOutcome.entersLoop :=
  ⟨rfl, rfl⟩

/-- C8 amended: main performs no configuration validation at startup —
it enters the supervisory loop for every static configuration, valid or
not; the shipped hardcoded configuration happens to satisfy the
validity criteria (positive duration, non-empty candidate list), so the
loop never runs with an invalid configuration as shipped. -/
theorem c8_startup_enters_loop_always :
    (∀ cfg : Config, main_startup cfg = StartupOutcome.entersLoop) ∧
      config_valid CONFIG = true :=
  ⟨fun _ => rfl, rfl⟩

/-- C10 (implicit): the supervisory loop discards the boolean result of
record_video.  In every iteration that obtained a destination, the
iteration runs the capture and then performs exactly the fixed
inter-segment pause of INTERVAL = 1 second, with the same subsequent
state, whatever exit status the encoder produced: a failed capture
neither terminates the loop, nor skips the pause, nor triggers the
longer 5 second no-destination pause; the next iteration then begins
with a fresh selection (the loop body of lines 245-271 restarts). -/
theorem c10_loop_ignores_capture_result (env : String → FsEntry)
    (t : Timestamp) (last : Option String) (p : String) (n : Int)
    (hsel : (select_usb_path CONFIG env last).1 = some p) :
    main_iteration CONFIG env t (RunOutcome.completed n) last =
      Except.ok ([Event.record p (decide (n = 0)), Event.sleep 1],
        (select_usb_path CONFIG env last).2) := by
  rcases hs : select_usb_path CONFIG env last with ⟨r, st⟩
  rw [hs] at hsel
  have hr : r = some p := hsel
  subst hr
  rw [main_iteration, hs]
  by_cases hn : n = 0 <;> simp [record_video, hn, CONFIG]

/-- C10 witness: in the cycle envC10 a destination is obtained, and both
a failing capture (exit 1) and a successful one (exit 0) are followed by
the same 1 second pause and the same state. -/
theorem c10_loop_ignores_capture_result_witness :
    (select_usb_path CONFIG envC10 none).1 = some "/mnt/usb1" ∧
      main_iteration CONFIG envC10 t0 (RunOutcome.completed 1) none =
        Except.ok ([Event.record "/mnt/usb1" (decide ((1 : Int) = 0)), Event.sleep 1],
          (select_usb_path CONFIG envC10 none).2) ∧
      main_iteration CONFIG envC10 t0 (RunOutcome.completed 0) none =
        Except.ok ([Event.record "/mnt/usb1" (decide ((0 : Int) = 0)), Event.sleep 1],
          (select_usb_path CONFIG envC10 none).2) :=
  ⟨by decide,
    c10_loop_ignores_capture_result envC10 t0 none "/mnt/usb1" 1 (by decide),
    c10_loop_ignores_capture_result envC10 t0 none "/mnt/usb1" 0 (by decide)⟩

/-- C7 (filename generation): for every capture attempt at a wall-clock
instant with in-range date and time fields, the output path record_video
constructs for the destination mount /mnt/usb1 is exactly
/mnt/usb1/video_YYYYMMDD_HHMMSS.avi: the mount root, /video_, eight
digits of zero-padded fixed-width date, an underscore, six digits of
zero-padded fixed-width time, and .avi, with nothing in between — the
file sits directly in the root of the destination mount. -/
theorem c7_filepath_pattern (t : Timestamp) (hy1 : 1000 ≤ t.year)
    (hy2 : t.year ≤ 9999) (hmo : t.month ≤ 12) (hd : t.day ≤ 31)
    (hh : t.hour ≤ 23) (hmi : t.minute ≤ 59) (hs : t.second ≤ 59) :
    spec_video_pattern "/mnt/usb1" (record_filepath "/mnt/usb1" t) := by
  have h4 : (10 : Nat) ^ 4 = 10000 := by norm_num
  have h2 : (10 : Nat) ^ 2 = 100 := by norm_num
  have ly : (padNum 4 t.year).length = 4 :=
    padNum_length (natDigits_length_le (by norm_num) (by omega))
  have lmo : (padNum 2 t.month).length = 2 :=
    padNum_length (natDigits_length_le (by norm_num) (by omega))
  have ld : (padNum 2 t.day).length = 2 :=
    padNum_length (natDigits_length_le (by norm_num) (by omega))
  have lh : (padNum 2 t.hour).length = 2 :=
    padNum_length (natDigits_length_le (by norm_num) (by omega))
  have lmi : (padNum 2 t.minute).length = 2 :=
    padNum_length (natDigits_length_le (by norm_num) (by omega))
  have ls : (padNum 2 t.second).length = 2 :=
    padNum_length (natDigits_length_le (by norm_num) (by omega))
  have hjoin : record_filepath "/mnt/usb1" t =
      "/mnt/usb1".toList ++ '/' :: record_filename t := by
    have htake : (record_filename t).take 1 = ['v'] := rfl
    have c1 : ¬ (record_filename t).take 1 = ['/'] := by
      rw [htake]; decide
    have c2 : ¬ ("/mnt/usb1".toList = ([] : List Char)) := by decide
    have c3 : ¬ ("/mnt/usb1".toList.getLast? = some '/') := by decide
    rw [record_filepath, os_path_join, if_neg c1, if_neg c2, if_neg c3]
  refine ⟨padNum 4 t.year ++ padNum 2 t.month ++ padNum 2 t.day,
          padNum 2 t.hour ++ padNum 2 t.minute ++ padNum 2 t.second,
          ?_, ?_, ?_, ?_, ?_⟩
  · simp [List.length_append, ly, lmo, ld]
  · simp [List.length_append, lh, lmi, ls]
  · intro c hc
    rcases List.mem_append.mp hc with hc' | hc'
    · rcases List.mem_append.mp hc' with hc'' | hc''
      · exact padNum_digits 4 t.year c hc''
      · exact padNum_digits 2 t.month c hc''
    · exact padNum_digits 2 t.day c hc'
  · intro c hc
    rcases List.mem_append.mp hc with hc' | hc'
    · rcases List.mem_append.mp hc' with hc'' | hc''
      · exact padNum_digits 2 t.hour c hc''
      · exact padNum_digits 2 t.minute c hc''
    · exact padNum_digits 2 t.second c hc'
  · rw [hjoin, record_filename, strftime_YmdHMS]
    have hv : ("/video_".toList : List Char) = '/' :: "video_".toList := rfl
    rw [hv]
    simp [List.append_assoc, List.cons_append, List.singleton_append]

/-- C7 witness: at 2025-10-03 14:35:20 the constructed path matches the
pattern (and the range hypotheses hold). -/
theorem c7_filepath_pattern_witness :
    (1000 ≤ t0.year ∧ t0.year ≤ 9999 ∧ t0.month ≤ 12 ∧ t0.day ≤ 31 ∧
        t0.hour ≤ 23 ∧ t0.minute ≤ 59 ∧ t0.second ≤ 59) ∧
      spec_video_pattern "/mnt/usb1" (record_filepath "/mnt/usb1" t0) :=
  ⟨⟨by decide, by decide, by decide, by decide, by decide, by decide, by decide⟩,
    c7_filepath_pattern t0 (by decide) (by decide) (by decide) (by decide)
      (by decide) (by decide) (by decide)⟩

end DashCam
